import Mathlib

/-!
Verification of the `libtimew` single-line parser (`src/lib.rs`).

Embedding conventions:
* Rust `DateTime<Utc>` is modelled by the record `DT` of calendar fields
  (UTC, second precision); `chrono::Duration` is modelled as a signed
  number of seconds (`Int`), with `toSec` converting a `DT` to seconds
  since the civil epoch 1970-01-01 (the standard days-from-civil
  algorithm chrono implements).
* The single impure operation, the `Utc::now()` clock read used for open
  intervals, becomes an explicit `now : DT` parameter of `from_str`.
* Rust's lazy `split_whitespace` iterator is materialised as the token
  list `splitWhitespace line`; the grammar consumes it in the same order
  the Rust code calls `parts.next()` (in the closed-interval branch the
  lookahead token is validated before the end date is parsed, as in the
  source).
* The Rust field `from` is named `start` here (`from` is reserved in
  Lean); all other names follow the source.
-/

/-- A UTC timestamp at second precision (the shape `chrono::DateTime<Utc>`
takes after parsing a `YYYYMMDDTHHMMSSZ` token). -/
structure DT where
  year : Nat
  month : Nat
  day : Nat
  hour : Nat
  minute : Nat
  second : Nat
deriving DecidableEq

/-- Numeric value of a decimal digit character. -/
def digitVal (c : Char) : Nat := c.toNat - 48

/-- Read exactly `n` decimal digits from the front of `cs`, folding them
into the accumulator `acc`; fails if a non-digit (or the end of input) is
hit first. -/
def readNumAux : Nat → Nat → List Char → Option (Nat × List Char)
  | 0, acc, cs => some (acc, cs)
  | _ + 1, _, [] => none
  | n + 1, acc, c :: cs =>
    if c.isDigit then readNumAux n (acc * 10 + digitVal c) cs else none

/-- Gregorian leap-year rule. -/
def isLeap (y : Nat) : Bool := y % 4 = 0 && (y % 100 ≠ 0 || y % 400 = 0)

/-- Number of days in a month of a given year. -/
def daysInMonth (y m : Nat) : Nat :=
  if m = 2 then (if isLeap y then 29 else 28)
  else if m = 4 || m = 6 || m = 9 || m = 11 then 30
  else 31

/-- Calendar validity of a year/month/day triple. -/
def validDate (y m d : Nat) : Bool :=
  1 ≤ m && m ≤ 12 && 1 ≤ d && d ≤ daysInMonth y m

/-- Validity of a time-of-day triple. -/
def validTime (h mi s : Nat) : Bool := h < 24 && mi < 60 && s < 60

/-- Modelled from the spec: the source delegates date parsing to
`chrono::DateTime::parse_from_str(.., "%Y%m%dT%H%M%SZ %z")`, an external
library whose code is not part of this repository.  Following §4.3 of the
spec, the token must be exactly `YYYYMMDD` `T` `HHMMSS` `Z` (the trailing
`Z` is the only accepted zone marker, fixed to UTC), and any parse
failure — wrong length, non-numeric fields, invalid calendar values —
yields an absent result rather than a record-level error. -/
def parse_date (date_string : String) : Option DT :=
  match readNumAux 4 0 date_string.data with
  | none => none
  | some (y, r1) =>
  match readNumAux 2 0 r1 with
  | none => none
  | some (mo, r2) =>
  match readNumAux 2 0 r2 with
  | none => none
  | some (d, r3) =>
  match r3 with
  | [] => none
  | c :: r4 =>
  if c = 'T' then
    match readNumAux 2 0 r4 with
    | none => none
    | some (h, r5) =>
    match readNumAux 2 0 r5 with
    | none => none
    | some (mi, r6) =>
    match readNumAux 2 0 r6 with
    | none => none
    | some (s, r7) =>
    if r7 = ['Z'] then
      if validDate y mo d && validTime h mi s then some ⟨y, mo, d, h, mi, s⟩
      else none
    else none
  else none

/-- Days between a civil date and 1970-01-01 (Hinnant's days-from-civil
algorithm, the arithmetic underlying chrono's timestamps). -/
def daysFromCivil (y m d : Int) : Int :=
  let y2 := if m ≤ 2 then y - 1 else y
  let era := Int.fdiv y2 400
  let yoe := y2 - era * 400
  let mp := Int.emod (m + 9) 12
  let doy := Int.fdiv (153 * mp + 2) 5 + d - 1
  let doe := yoe * 365 + Int.fdiv yoe 4 - Int.fdiv yoe 100 + doy
  era * 146097 + doe - 719468

/-- Seconds since 1970-01-01T00:00:00Z of a timestamp. -/
def toSec (t : DT) : Int :=
  86400 * daysFromCivil t.year t.month t.day
    + 3600 * (t.hour : Int) + 60 * (t.minute : Int) + (t.second : Int)

/-- `chrono::Duration::minutes(n)` as a signed number of seconds. -/
def durMinutes (n : Int) : Int := n * 60

/-- The error type `TimeWarriorLineError` of the source. -/
inductive TimeWarriorLineError where
  | Generic (msg : String)
  | NoDate
deriving DecidableEq

/-- The record type `TimeWarriorLine` of the source (`from` renamed to
`start`). -/
structure TimeWarriorLine where
  tw_type : String
  start : DT
  until_ : DT
  tags : List String
  active : Bool
deriving DecidableEq

/-- `TimeWarriorLine::duration`: `self.until - self.from` as a signed
span of seconds. -/
def duration (r : TimeWarriorLine) : Int := toSec r.until_ - toSec r.start

/-- Join a list of strings with single spaces (Rust `Vec::join(" ")`). -/
def joinSp : List String → String
  | [] => ""
  | [t] => t
  | t :: ts => t ++ " " ++ joinSp ts

/-- `TimeWarriorLine::full_tag`: `self.tags.join(" ")`. -/
def full_tag (r : TimeWarriorLine) : String := joinSp r.tags

/-- `TimeWarriorLine::get_day`: the calendar date of `self.from`. -/
def get_day (r : TimeWarriorLine) : Nat × Nat × Nat :=
  (r.start.year, r.start.month, r.start.day)

/-- Rust `char::is_whitespace`: membership in the Unicode `White_Space`
set. -/
def isWs (c : Char) : Bool :=
  let n := c.toNat
  n = 0x20 || (0x9 ≤ n && n ≤ 0xD) || n = 0x85 || n = 0xA0 || n = 0x1680
    || (0x2000 ≤ n && n ≤ 0x200A) || n = 0x2028 || n = 0x2029
    || n = 0x202F || n = 0x205F || n = 0x3000

/-- Worker for `splitWhitespace`: `acc` is the reversed word currently
being accumulated. -/
def splitWsAux : List Char → List Char → List (List Char)
  | [], acc => if acc = [] then [] else [acc.reverse]
  | c :: cs, acc =>
    if isWs c then
      (if acc = [] then [] else [acc.reverse]) ++ splitWsAux cs []
    else
      splitWsAux cs (c :: acc)

/-- Rust `str::split_whitespace`: split on runs of Unicode whitespace,
discarding empty tokens. -/
def splitWhitespace (s : String) : List String :=
  (splitWsAux s.data []).map String.mk

/-- Worker for the tag lexer of `from_str` (lines 116–139 of the source):
`multitag` is the quoted flag, `cur` the reversed tag under
construction.  A `"` toggles the flag and is dropped; a space while
quoted is kept; a space while unquoted pushes the current tag (even when
empty); at the end a non-empty leftover tag is pushed. -/
def lexTagsAux : List Char → Bool → List Char → List String
  | [], _, cur => if cur = [] then [] else [String.mk cur.reverse]
  | c :: cs, multitag, cur =>
    if c = '"' then lexTagsAux cs (!multitag) cur
    else if c = ' ' then
      if multitag then lexTagsAux cs multitag (' ' :: cur)
      else String.mk cur.reverse :: lexTagsAux cs multitag []
    else lexTagsAux cs multitag (c :: cur)

/-- The tag lexer applied to the rejoined residual string. -/
def lexTags (s : String) : List String := lexTagsAux s.data false []

/-- Debug-style quoting used in the source's `format!("Unexpected {:?}", ..)`
error messages (escaping of special characters inside the token is not
reproduced; no claim depends on it). -/
def quoteStr (s : String) : String := "\"" ++ s ++ "\""

/-- The body of `FromStr::from_str` after tokenization, consuming the
token list exactly as the source consumes `parts.next()`:
kind, start date, then the three-way trailer branch; in the `-` branch
the token after the end date is validated before the end date itself is
parsed, as in the source. -/
def fromTokens (now : DT) (parts : List String) :
    Except TimeWarriorLineError TimeWarriorLine :=
  match parts with
  | [] => .error (.Generic "Type parsing")
  | tw_type :: rest =>
    match rest with
    | [] => .error .NoDate
    | a :: rest2 =>
      match parse_date a with
      | none => .error .NoDate
      | some fromD =>
        match rest2 with
        | [] => .ok ⟨tw_type, fromD, now, [], true⟩
        | t2 :: rest3 =>
          if t2 = "#" then
            .ok ⟨tw_type, fromD, now, lexTags (joinSp rest3), true⟩
          else if t2 = "-" then
            match rest3 with
            | [] => .error (.Generic "nope")
            | u :: rest4 =>
              match
                (match rest4 with
                 | [] => Except.ok []
                 | t4 :: rest5 =>
                   if t4 = "#" then Except.ok rest5
                   else Except.error (TimeWarriorLineError.Generic
                     ("Unexpected Some(" ++ quoteStr t4 ++ ")"))) with
              | .error e => .error e
              | .ok tagToks =>
                match parse_date u with
                | none =>
                  .error (.Generic ("Unexpected " ++ quoteStr u))
                | some untilD =>
                  .ok ⟨tw_type, fromD, untilD, lexTags (joinSp tagToks), false⟩
          else
            .error (.Generic ("Unexpected Some(" ++ quoteStr t2 ++ ")"))

/-- `TimeWarriorLine::from_str`, with the `Utc::now()` clock read made an
explicit `now` parameter. -/
def from_str (now : DT) (line : String) :
    Except TimeWarriorLineError TimeWarriorLine :=
  fromTokens now (splitWhitespace line)

/-- True on the `Err` side of a parse result. -/
def isErr : Except TimeWarriorLineError TimeWarriorLine → Bool
  | .error _ => true
  | .ok _ => false

/-- Replace every maximal run of whitespace by one space (used to state
the whitespace-insensitivity of the parser); the flag records whether
the previous character was whitespace. -/
def normAux : List Char → Bool → List Char
  | [], _ => []
  | c :: cs, prev =>
    if isWs c then
      (if prev then normAux cs true else ' ' :: normAux cs true)
    else c :: normAux cs false

/-- A line with every run of whitespace collapsed to a single space. -/
def normalizeWs (s : String) : String := String.mk (normAux s.data false)

/-- Horner decoding of two digit characters. -/
def dec2 (a b : Char) : Nat := digitVal a * 10 + digitVal b

/-- Horner decoding of four digit characters. -/
def dec4 (a b c d : Char) : Nat :=
  ((digitVal a * 10 + digitVal b) * 10 + digitVal c) * 10 + digitVal d

/-- Scrub the clock-dependent `until` field of an open record (closed
records are untouched); used to state that everything except the
open-interval end is clock-independent. -/
def scrub (r : TimeWarriorLine) : TimeWarriorLine :=
  if r.active then { r with until_ := ⟨1970, 1, 1, 0, 0, 0⟩ } else r

/-- Scrub the kind field; used to state that the parse outcome never
depends on the kind token. -/
def scrubType (r : TimeWarriorLine) : TimeWarriorLine :=
  { r with tw_type := "" }

/-! ### Characterization of `fromTokens`, one lemma per control-flow leaf -/

theorem ft_nil (n : DT) : fromTokens n [] = .error (.Generic "Type parsing") := rfl

theorem ft_one (n : DT) (k : String) : fromTokens n [k] = .error .NoDate := rfl

theorem ft_bad_date (n : DT) (k a : String) (r : List String)
    (h : parse_date a = none) : fromTokens n (k :: a :: r) = .error .NoDate := by
  simp [fromTokens, h]

theorem ft_two (n : DT) (k a : String) (f : DT) (h : parse_date a = some f) :
    fromTokens n [k, a] = .ok ⟨k, f, n, [], true⟩ := by
  simp [fromTokens, h]

theorem ft_hash (n : DT) (k a : String) (rest : List String) (f : DT)
    (h : parse_date a = some f) :
    fromTokens n (k :: a :: "#" :: rest) =
      .ok ⟨k, f, n, lexTags (joinSp rest), true⟩ := by
  simp [fromTokens, h]

theorem ft_other (n : DT) (k a t : String) (rest : List String) (f : DT)
    (h : parse_date a = some f) (h2 : t ≠ "#") (h3 : t ≠ "-") :
    fromTokens n (k :: a :: t :: rest) =
      .error (.Generic ("Unexpected Some(" ++ quoteStr t ++ ")")) := by
  simp [fromTokens, h, h2, h3]

theorem ft_dash_nil (n : DT) (k a : String) (f : DT)
    (h : parse_date a = some f) :
    fromTokens n [k, a, "-"] = .error (.Generic "nope") := by
  simp [fromTokens, h]

theorem ft_dash_bad_next (n : DT) (k a u t4 : String) (r5 : List String) (f : DT)
    (h : parse_date a = some f) (h4 : t4 ≠ "#") :
    fromTokens n (k :: a :: "-" :: u :: t4 :: r5) =
      .error (.Generic ("Unexpected Some(" ++ quoteStr t4 ++ ")")) := by
  simp [fromTokens, h, h4]

theorem ft_dash_u_bad_nil (n : DT) (k a u : String) (f : DT)
    (h : parse_date a = some f) (hu : parse_date u = none) :
    fromTokens n [k, a, "-", u] =
      .error (.Generic ("Unexpected " ++ quoteStr u)) := by
  simp [fromTokens, h, hu]

theorem ft_dash_u_ok_nil (n : DT) (k a u : String) (f g : DT)
    (h : parse_date a = some f) (hu : parse_date u = some g) :
    fromTokens n [k, a, "-", u] = .ok ⟨k, f, g, [], false⟩ := by
  simp [fromTokens, h, hu, lexTags, joinSp, lexTagsAux]

theorem ft_dash_u_bad_hash (n : DT) (k a u : String) (r5 : List String) (f : DT)
    (h : parse_date a = some f) (hu : parse_date u = none) :
    fromTokens n (k :: a :: "-" :: u :: "#" :: r5) =
      .error (.Generic ("Unexpected " ++ quoteStr u)) := by
  simp [fromTokens, h, hu]

theorem ft_dash_u_ok_hash (n : DT) (k a u : String) (r5 : List String) (f g : DT)
    (h : parse_date a = some f) (hu : parse_date u = some g) :
    fromTokens n (k :: a :: "-" :: u :: "#" :: r5) =
      .ok ⟨k, f, g, lexTags (joinSp r5), false⟩ := by
  simp [fromTokens, h, hu]

/-- Exhaustive shape analysis of a token list: every list falls into one
of the ten control-flow leaves of `fromTokens`. -/
theorem ft_shape (ts : List String) :
    ts = [] ∨
    (∃ k, ts = [k]) ∨
    (∃ k a r, ts = k :: a :: r ∧ parse_date a = none) ∨
    (∃ k a f, ts = [k, a] ∧ parse_date a = some f) ∨
    (∃ k a rest f, ts = k :: a :: "#" :: rest ∧ parse_date a = some f) ∨
    (∃ k a t rest f, ts = k :: a :: t :: rest ∧ parse_date a = some f ∧
      t ≠ "#" ∧ t ≠ "-") ∨
    (∃ k a f, ts = [k, a, "-"] ∧ parse_date a = some f) ∨
    (∃ k a u t4 r5 f, ts = k :: a :: "-" :: u :: t4 :: r5 ∧
      parse_date a = some f ∧ t4 ≠ "#") ∨
    (∃ k a u f, ts = [k, a, "-", u] ∧ parse_date a = some f) ∨
    (∃ k a u r5 f, ts = k :: a :: "-" :: u :: "#" :: r5 ∧
      parse_date a = some f) := by
  rcases ts with _ | ⟨k, _ | ⟨a, r⟩⟩
  · exact Or.inl rfl
  · exact Or.inr (Or.inl ⟨k, rfl⟩)
  · rcases hpd : parse_date a with _ | f
    · exact Or.inr (Or.inr (Or.inl ⟨k, a, r, rfl, hpd⟩))
    · rcases r with _ | ⟨t, r3⟩
      · exact Or.inr (Or.inr (Or.inr (Or.inl ⟨k, a, f, rfl, hpd⟩)))
      · by_cases ht : t = "#"
        · subst ht
          exact Or.inr (Or.inr (Or.inr (Or.inr (Or.inl ⟨k, a, r3, f, rfl, hpd⟩))))
        · by_cases ht2 : t = "-"
          · subst ht2
            rcases r3 with _ | ⟨u, r4⟩
            · exact Or.inr (Or.inr (Or.inr (Or.inr (Or.inr (Or.inr
                (Or.inl ⟨k, a, f, rfl, hpd⟩))))))
            · rcases r4 with _ | ⟨t4, r5⟩
              · exact Or.inr (Or.inr (Or.inr (Or.inr (Or.inr (Or.inr (Or.inr
                  (Or.inr (Or.inl ⟨k, a, u, f, rfl, hpd⟩))))))))
              · by_cases ht4 : t4 = "#"
                · subst ht4
                  exact Or.inr (Or.inr (Or.inr (Or.inr (Or.inr (Or.inr (Or.inr
                    (Or.inr (Or.inr ⟨k, a, u, r5, f, rfl, hpd⟩))))))))
                · exact Or.inr (Or.inr (Or.inr (Or.inr (Or.inr (Or.inr (Or.inr
                    (Or.inl ⟨k, a, u, t4, r5, f, rfl, hpd, ht4⟩)))))))
          · exact Or.inr (Or.inr (Or.inr (Or.inr (Or.inr
              (Or.inl ⟨k, a, t, r3, f, rfl, hpd, ht, ht2⟩)))))

/-- C1: for every malformed line of the five listed shapes — empty line,
missing or unparseable start-date token, trailing garbage after a parsed
closed interval, a bare trailing word after the start date with no `#` or
`-` marker, and a dangling `-` with nothing after it — `from_str` returns
an error, never a record. -/
theorem c1_malformed_lines_fail (now : DT) (l : String)
    (h : splitWhitespace l = [] ∨
      (∃ k, splitWhitespace l = [k]) ∨
      (∃ k d rest, splitWhitespace l = k :: d :: rest ∧ parse_date d = none) ∨
      (∃ k d u e rest, splitWhitespace l = k :: d :: "-" :: u :: e :: rest ∧
        (parse_date d).isSome = true ∧ (parse_date u).isSome = true ∧ e ≠ "#") ∨
      (∃ k d w rest, splitWhitespace l = k :: d :: w :: rest ∧
        (parse_date d).isSome = true ∧ w ≠ "#" ∧ w ≠ "-") ∨
      (∃ k d, splitWhitespace l = [k, d, "-"] ∧ (parse_date d).isSome = true)) :
    isErr (from_str now l) = true := by
  unfold from_str
  rcases h with h | ⟨k, h⟩ | ⟨k, d, rest, h, hpd⟩ |
    ⟨k, d, u, e, rest, h, hd, hu, he⟩ | ⟨k, d, w, rest, h, hd, hw1, hw2⟩ |
    ⟨k, d, h, hd⟩
  · rw [h, ft_nil]; rfl
  · rw [h, ft_one]; rfl
  · rw [h, ft_bad_date now k d rest hpd]; rfl
  · obtain ⟨f, hf⟩ := Option.isSome_iff_exists.mp hd
    rw [h, ft_dash_bad_next now k d u e rest f hf he]; rfl
  · obtain ⟨f, hf⟩ := Option.isSome_iff_exists.mp hd
    rw [h, ft_other now k d w rest f hf hw1 hw2]; rfl
  · obtain ⟨f, hf⟩ := Option.isSome_iff_exists.mp hd
    rw [h, ft_dash_nil now k d f hf]; rfl

/-- Witness for C1 at the empty line. -/
theorem c1_witness :
    isErr (from_str ⟨2026, 1, 5, 12, 0, 0⟩ "") = true :=
  c1_malformed_lines_fail ⟨2026, 1, 5, 12, 0, 0⟩ "" (Or.inl rfl)

/-- C2: `from_str` returns `NoDate` exactly when the mandatory start-date
token is missing or fails date parsing; every other failure is `Generic` —
in particular an unparseable end date yields `Generic`, not `NoDate`. -/
theorem c2_nodate_exactly_start_date :
    (∀ (now : DT) (l : String),
      from_str now l = .error .NoDate ↔
        ∃ k rest, splitWhitespace l = k :: rest ∧
          (rest = [] ∨ ∃ d rest2, rest = d :: rest2 ∧ parse_date d = none)) ∧
    (∀ now : DT, from_str now "inc 20001011T133055Z - sdsadsad" =
      .error (.Generic "Unexpected \"sdsadsad\"")) := by
  constructor
  · intro now l
    unfold from_str
    constructor
    · intro h
      rcases ft_shape (splitWhitespace l) with hs | ⟨k, hs⟩ | ⟨k, d, r, hs, hpd⟩ |
        ⟨k, a, f, hs, hpd⟩ | ⟨k, a, rest, f, hs, hpd⟩ |
        ⟨k, a, t, rest, f, hs, hpd, ht, ht2⟩ | ⟨k, a, f, hs, hpd⟩ |
        ⟨k, a, u, t4, r5, f, hs, hpd, ht4⟩ | ⟨k, a, u, f, hs, hpd⟩ |
        ⟨k, a, u, r5, f, hs, hpd⟩
      · rw [hs, ft_nil] at h; simp at h
      · exact ⟨k, [], hs, Or.inl rfl⟩
      · exact ⟨k, d :: r, hs, Or.inr ⟨d, r, rfl, hpd⟩⟩
      · rw [hs, ft_two now k a f hpd] at h; simp at h
      · rw [hs, ft_hash now k a rest f hpd] at h; simp at h
      · rw [hs, ft_other now k a t rest f hpd ht ht2] at h; simp at h
      · rw [hs, ft_dash_nil now k a f hpd] at h; simp at h
      · rw [hs, ft_dash_bad_next now k a u t4 r5 f hpd ht4] at h; simp at h
      · rcases hu : parse_date u with _ | g
        · rw [hs, ft_dash_u_bad_nil now k a u f hpd hu] at h; simp at h
        · rw [hs, ft_dash_u_ok_nil now k a u f g hpd hu] at h; simp at h
      · rcases hu : parse_date u with _ | g
        · rw [hs, ft_dash_u_bad_hash now k a u r5 f hpd hu] at h; simp at h
        · rw [hs, ft_dash_u_ok_hash now k a u r5 f g hpd hu] at h; simp at h
    · rintro ⟨k, rest, hs, hrest | ⟨d, rest2, hd, hpd⟩⟩
      · subst hrest; rw [hs, ft_one]
      · subst hd; rw [hs, ft_bad_date now k d rest2 hpd]
  · intro now; rfl

/-- Inversion of the fixed-width digit reader: it succeeds exactly on a
prefix of `n` digit characters, returning their Horner fold. -/
theorem readNumAux_some_iff (n : Nat) :
    ∀ (acc : Nat) (cs : List Char) (v : Nat) (r : List Char),
      readNumAux n acc cs = some (v, r) ↔
        ∃ ds : List Char, cs = ds ++ r ∧ ds.length = n ∧
          (∀ c ∈ ds, c.isDigit = true) ∧
          v = ds.foldl (fun a c => a * 10 + digitVal c) acc := by
  induction n with
  | zero =>
    intro acc cs v r
    constructor
    · intro h
      simp only [readNumAux, Option.some.injEq, Prod.mk.injEq] at h
      exact ⟨[], by simp [h.2], rfl, by simp, by simp [h.1.symm]⟩
    · rintro ⟨ds, hcs, hlen, _, hv⟩
      have hds : ds = [] := List.eq_nil_of_length_eq_zero hlen
      subst hds
      simp only [List.nil_append] at hcs
      simp [readNumAux, hcs, hv]
  | succ n ih =>
    intro acc cs v r
    cases cs with
    | nil =>
      simp only [readNumAux]
      constructor
      · intro h; exact absurd h (by simp)
      · rintro ⟨ds, hcs, hlen, _, _⟩
        rcases List.append_eq_nil.mp hcs.symm with ⟨rfl, -⟩
        simp at hlen
    | cons c cs2 =>
      by_cases hc : c.isDigit
      · rw [show readNumAux (n + 1) acc (c :: cs2) =
              readNumAux n (acc * 10 + digitVal c) cs2 by simp [readNumAux, hc]]
        rw [ih]
        constructor
        · rintro ⟨ds, hcs, hlen, hdig, hv⟩
          refine ⟨c :: ds, by simp [hcs], by simp [hlen], ?_, by simp [hv]⟩
          intro x hx
          rcases List.mem_cons.mp hx with rfl | hx
          · exact hc
          · exact hdig x hx
        · rintro ⟨ds, hcs, hlen, hdig, hv⟩
          cases ds with
          | nil => simp at hlen
          | cons d ds2 =>
            obtain ⟨rfl, hcs2⟩ : c = d ∧ cs2 = ds2 ++ r := by
              simpa using hcs
            refine ⟨ds2, hcs2, by simpa using hlen, ?_, by simpa using hv⟩
            intro x hx
            exact hdig x (List.mem_cons_of_mem _ hx)
      · constructor
        · intro h
          rw [show readNumAux (n + 1) acc (c :: cs2) = none by
            simp [readNumAux, hc]] at h
          exact absurd h (by simp)
        · rintro ⟨ds, hcs, hlen, hdig, -⟩
          cases ds with
          | nil => simp at hlen
          | cons d ds2 =>
            obtain ⟨rfl, -⟩ : c = d ∧ cs2 = ds2 ++ r := by simpa using hcs
            exact absurd (hdig c (by simp)) (by simp [hc])

/-- Four-digit specialisation of `readNumAux_some_iff`. -/
theorem read4_iff (cs : List Char) (v : Nat) (r : List Char) :
    readNumAux 4 0 cs = some (v, r) ↔
      ∃ a b c d : Char, cs = a :: b :: c :: d :: r ∧
        a.isDigit = true ∧ b.isDigit = true ∧ c.isDigit = true ∧
        d.isDigit = true ∧ v = dec4 a b c d := by
  rw [readNumAux_some_iff]
  constructor
  · rintro ⟨ds, hcs, hlen, hdig, hv⟩
    rcases ds with _ | ⟨a, _ | ⟨b, _ | ⟨c, _ | ⟨d, tl⟩⟩⟩⟩ <;> simp at hlen
    subst hlen
    refine ⟨a, b, c, d, by simpa using hcs, hdig a (by simp), hdig b (by simp),
      hdig c (by simp), hdig d (by simp), ?_⟩
    simp [hv, dec4, List.foldl]
  · rintro ⟨a, b, c, d, hcs, h1, h2, h3, h4, hv⟩
    refine ⟨[a, b, c, d], by simpa using hcs, rfl, ?_, ?_⟩
    · intro x hx
      rcases List.mem_cons.mp hx with rfl | hx
      · exact h1
      rcases List.mem_cons.mp hx with rfl | hx
      · exact h2
      rcases List.mem_cons.mp hx with rfl | hx
      · exact h3
      rcases List.mem_cons.mp hx with rfl | hx
      · exact h4
      · simp at hx
    · simp [hv, dec4, List.foldl]

/-- Two-digit specialisation of `readNumAux_some_iff`. -/
theorem read2_iff (cs : List Char) (v : Nat) (r : List Char) :
    readNumAux 2 0 cs = some (v, r) ↔
      ∃ a b : Char, cs = a :: b :: r ∧
        a.isDigit = true ∧ b.isDigit = true ∧ v = dec2 a b := by
  rw [readNumAux_some_iff]
  constructor
  · rintro ⟨ds, hcs, hlen, hdig, hv⟩
    rcases ds with _ | ⟨a, _ | ⟨b, tl⟩⟩ <;> simp at hlen
    subst hlen
    refine ⟨a, b, by simpa using hcs, hdig a (by simp), hdig b (by simp), ?_⟩
    simp [hv, dec2, List.foldl]
  · rintro ⟨a, b, hcs, h1, h2, hv⟩
    refine ⟨[a, b], by simpa using hcs, rfl, ?_, ?_⟩
    · intro x hx
      rcases List.mem_cons.mp hx with rfl | hx
      · exact h1
      rcases List.mem_cons.mp hx with rfl | hx
      · exact h2
      · simp at hx
    · simp [hv, dec2, List.foldl]

/-- C3: the date parser accepts exactly the token format
`YYYYMMDDTHHMMSSZ` (mandatory trailing `Z`, the only zone marker,
interpreted as UTC) with valid calendar values, and returns an absent
result — not a record-level error — on any other input, including wrong
length, non-numeric fields, invalid calendar values such as month 13,
and a non-`Z` zone suffix such as `CEST`. -/
theorem c3_date_parser_format :
    (∀ (s : String) (t : DT),
      parse_date s = some t ↔
        ∃ y1 y2 y3 y4 o1 o2 d1 d2 h1 h2 i1 i2 e1 e2 : Char,
          s.data = [y1, y2, y3, y4, o1, o2, d1, d2, 'T',
            h1, h2, i1, i2, e1, e2, 'Z'] ∧
          y1.isDigit = true ∧ y2.isDigit = true ∧ y3.isDigit = true ∧
          y4.isDigit = true ∧ o1.isDigit = true ∧ o2.isDigit = true ∧
          d1.isDigit = true ∧ d2.isDigit = true ∧ h1.isDigit = true ∧
          h2.isDigit = true ∧ i1.isDigit = true ∧ i2.isDigit = true ∧
          e1.isDigit = true ∧ e2.isDigit = true ∧
          validDate (dec4 y1 y2 y3 y4) (dec2 o1 o2) (dec2 d1 d2) = true ∧
          validTime (dec2 h1 h2) (dec2 i1 i2) (dec2 e1 e2) = true ∧
          t = ⟨dec4 y1 y2 y3 y4, dec2 o1 o2, dec2 d1 d2,
               dec2 h1 h2, dec2 i1 i2, dec2 e1 e2⟩) ∧
    parse_date "20001011T133055Z" = some ⟨2000, 10, 11, 13, 30, 55⟩ ∧
    parse_date "20001011T133055CEST" = none ∧
    parse_date "20001311T133055Z" = none ∧
    parse_date "2000101AT133055Z" = none ∧
    parse_date "20001011T13305Z" = none := by
  refine ⟨?_, rfl, rfl, rfl, rfl, rfl⟩
  intro s t
  constructor
  · intro h
    unfold parse_date at h
    rcases h1 : readNumAux 4 0 s.data with _ | ⟨y, r1⟩
    · simp [h1] at h
    simp only [h1] at h
    rcases h2 : readNumAux 2 0 r1 with _ | ⟨mo, r2⟩
    · simp [h2] at h
    simp only [h2] at h
    rcases h3 : readNumAux 2 0 r2 with _ | ⟨d, r3⟩
    · simp [h3] at h
    simp only [h3] at h
    rcases hr3 : r3 with _ | ⟨c, r4⟩
    · simp [hr3] at h
    simp only [hr3] at h
    by_cases hct : c = 'T'
    swap
    · simp [hct] at h
    subst hct
    simp only [if_pos rfl] at h
    rcases h4 : readNumAux 2 0 r4 with _ | ⟨hh, r5⟩
    · simp [h4] at h
    simp only [h4] at h
    rcases h5 : readNumAux 2 0 r5 with _ | ⟨mi, r6⟩
    · simp [h5] at h
    simp only [h5] at h
    rcases h6 : readNumAux 2 0 r6 with _ | ⟨se, r7⟩
    · simp [h6] at h
    simp only [h6] at h
    by_cases hz : r7 = ['Z']
    swap
    · simp [hz] at h
    subst hz
    simp only [if_pos rfl] at h
    simp at h
    obtain ⟨⟨hvd, hvt⟩, hrec⟩ := h
    obtain ⟨y1, y2, y3, y4, hc1, hy1, hy2, hy3, hy4, hyv⟩ := (read4_iff _ _ _).mp h1
    obtain ⟨o1, o2, hc2, ho1, ho2, hov⟩ := (read2_iff _ _ _).mp h2
    obtain ⟨d1, d2, hc3, hd1, hd2, hdv⟩ := (read2_iff _ _ _).mp h3
    obtain ⟨p1, p2, hc4, hp1, hp2, hpv⟩ := (read2_iff _ _ _).mp h4
    obtain ⟨i1, i2, hc5, hi1, hi2, hiv⟩ := (read2_iff _ _ _).mp h5
    obtain ⟨e1, e2, hc6, he1, he2, hev⟩ := (read2_iff _ _ _).mp h6
    refine ⟨y1, y2, y3, y4, o1, o2, d1, d2, p1, p2, i1, i2, e1, e2, ?_,
      hy1, hy2, hy3, hy4, ho1, ho2, hd1, hd2, hp1, hp2, hi1, hi2, he1, he2,
      ?_, ?_, ?_⟩
    · rw [hc1, hc2, hc3, hr3, hc4, hc5, hc6]
    · rw [← hyv, ← hov, ← hdv]; exact hvd
    · rw [← hpv, ← hiv, ← hev]; exact hvt
    · rw [← hrec, hyv, hov, hdv, hpv, hiv, hev]
  · rintro ⟨y1, y2, y3, y4, o1, o2, d1, d2, p1, p2, i1, i2, e1, e2, hdata,
      hy1, hy2, hy3, hy4, ho1, ho2, hd1, hd2, hp1, hp2, hi1, hi2, he1, he2,
      hvd, hvt, ht⟩
    subst ht
    unfold parse_date
    rw [hdata]
    simp only [readNumAux, hy1, hy2, hy3, hy4, ho1, ho2, hd1, hd2,
      hp1, hp2, hi1, hi2, he1, he2, if_true, if_pos rfl]
    simp only [show (0 : Nat) * 10 = 0 from rfl, Nat.zero_add]
    simp only [show ∀ a b c d : Char, ((digitVal a * 10 + digitVal b) * 10 +
      digitVal c) * 10 + digitVal d = dec4 a b c d from fun _ _ _ _ => rfl]
    simp only [show ∀ a b : Char, digitVal a * 10 + digitVal b = dec2 a b from
      fun _ _ => rfl]
    simp [hvd, hvt]

/-- The tag lexer never lets a double quote into a tag: invariant carried
through the scan. -/
theorem lexTagsAux_no_quote :
    ∀ (cs : List Char) (q : Bool) (cur : List Char),
      (cur.all fun c => c != '"') = true →
      ((lexTagsAux cs q cur).all fun t => t.data.all fun c => c != '"') = true := by
  intro cs
  induction cs with
  | nil =>
    intro q cur hcur
    by_cases hc : cur = []
    · simp [lexTagsAux, hc]
    · simp only [lexTagsAux, if_neg hc, List.all_cons, List.all_nil,
        Bool.and_true]
      simpa [List.all_reverse] using hcur
  | cons c cs ih =>
    intro q cur hcur
    by_cases hq : c = '"'
    · subst hq
      rw [show lexTagsAux ('"' :: cs) q cur = lexTagsAux cs (!q) cur from rfl]
      exact ih (!q) cur hcur
    · by_cases hsp : c = ' '
      · subst hsp
        cases q with
        | true =>
          rw [show lexTagsAux (' ' :: cs) true cur =
            lexTagsAux cs true (' ' :: cur) from rfl]
          exact ih true (' ' :: cur) (by simp [hcur])
        | false =>
          rw [show lexTagsAux (' ' :: cs) false cur =
            String.mk cur.reverse :: lexTagsAux cs false [] from rfl]
          rw [List.all_cons, ih false [] rfl]
          simpa [List.all_reverse] using hcur
      · simp only [lexTagsAux, if_neg hq, if_neg hsp]
        exact ih q (c :: cur) (by simp [hcur, hq])

/-- C4: the tag lexer treats `"` as a toggle of the quoted flag, never
including it in any tag, and the quoted multi-word example line parses
into exactly the three tags `["ABC CDE", "EFG", "HIJ"]` in order. -/
theorem c4_quote_toggle_and_example :
    (∀ s : String,
      ((lexTags s).all fun t => t.data.all fun c => c != '"') = true) ∧
    (∀ now : DT,
      from_str now "inc 20001011T133055Z - 20001112T144054Z # \"ABC CDE\" EFG HIJ" =
        .ok ⟨"inc", ⟨2000, 10, 11, 13, 30, 55⟩, ⟨2000, 11, 12, 14, 40, 54⟩,
          ["ABC CDE", "EFG", "HIJ"], false⟩) :=
  ⟨fun s => lexTagsAux_no_quote s.data false [] rfl, fun _ => rfl⟩

/-- C5: on every successful parse, `active` is true exactly when the
token after the start date is absent or is the literal `#`, and false
exactly when the trailer is `-` followed by a parseable end date. -/
theorem c5_active_iff_no_end (now : DT) (l : String) (r : TimeWarriorLine)
    (h : from_str now l = .ok r) :
    (r.active = true ↔
      ((splitWhitespace l).get? 2 = none ∨
        (splitWhitespace l).get? 2 = some "#")) ∧
    (r.active = false ↔
      ∃ u rest, (splitWhitespace l).drop 2 = "-" :: u :: rest ∧
        (parse_date u).isSome = true) := by
  unfold from_str at h
  rcases ft_shape (splitWhitespace l) with hs | ⟨k, hs⟩ | ⟨k, d, rr, hs, hpd⟩ |
    ⟨k, a, f, hs, hpd⟩ | ⟨k, a, rest, f, hs, hpd⟩ |
    ⟨k, a, t, rest, f, hs, hpd, ht, ht2⟩ | ⟨k, a, f, hs, hpd⟩ |
    ⟨k, a, u, t4, r5, f, hs, hpd, ht4⟩ | ⟨k, a, u, f, hs, hpd⟩ |
    ⟨k, a, u, r5, f, hs, hpd⟩
  · rw [hs, ft_nil] at h; simp at h
  · rw [hs, ft_one] at h; simp at h
  · rw [hs, ft_bad_date now k d rr hpd] at h; simp at h
  · rw [hs, ft_two now k a f hpd] at h
    have hr := (Except.ok.inj h).symm
    subst hr
    constructor <;> simp [hs]
  · rw [hs, ft_hash now k a rest f hpd] at h
    have hr := (Except.ok.inj h).symm
    subst hr
    constructor <;> simp [hs]
  · rw [hs, ft_other now k a t rest f hpd ht ht2] at h; simp at h
  · rw [hs, ft_dash_nil now k a f hpd] at h; simp at h
  · rw [hs, ft_dash_bad_next now k a u t4 r5 f hpd ht4] at h; simp at h
  · rcases hu : parse_date u with _ | g
    · rw [hs, ft_dash_u_bad_nil now k a u f hpd hu] at h; simp at h
    · rw [hs, ft_dash_u_ok_nil now k a u f g hpd hu] at h
      have hr := (Except.ok.inj h).symm
      subst hr
      constructor <;> simp [hs, hu]
  · rcases hu : parse_date u with _ | g
    · rw [hs, ft_dash_u_bad_hash now k a u r5 f hpd hu] at h; simp at h
    · rw [hs, ft_dash_u_ok_hash now k a u r5 f g hpd hu] at h
      have hr := (Except.ok.inj h).symm
      subst hr
      constructor <;> simp [hs, hu]

/-- Witness for C5 at the open line `"inc 20001011T133055Z"`. -/
theorem c5_witness :
    ((TimeWarriorLine.active ⟨"inc", ⟨2000, 10, 11, 13, 30, 55⟩,
        ⟨2026, 1, 5, 12, 0, 0⟩, [], true⟩ = true ↔
      ((splitWhitespace "inc 20001011T133055Z").get? 2 = none ∨
        (splitWhitespace "inc 20001011T133055Z").get? 2 = some "#")) ∧
     (TimeWarriorLine.active ⟨"inc", ⟨2000, 10, 11, 13, 30, 55⟩,
        ⟨2026, 1, 5, 12, 0, 0⟩, [], true⟩ = false ↔
      ∃ u rest, (splitWhitespace "inc 20001011T133055Z").drop 2 =
          "-" :: u :: rest ∧ (parse_date u).isSome = true)) :=
  c5_active_iff_no_end ⟨2026, 1, 5, 12, 0, 0⟩ "inc 20001011T133055Z" _ rfl

/-- C6: the line `"inc 20001011T133055Z"` parses into kind `inc`, active
true, no tags, and start timestamp 2000-10-11 13:30:55 UTC (the end field
is the parse-time clock). -/
theorem c6_open_line_parses (now : DT) :
    from_str now "inc 20001011T133055Z" =
      .ok ⟨"inc", ⟨2000, 10, 11, 13, 30, 55⟩, now, [], true⟩ := rfl

/-- C7: `duration` is end minus start as a signed span for every record,
and on the parse of `"inc 20001011T133055Z - 20001011T134055Z"` it equals
exactly 10 minutes. -/
theorem c7_duration_end_minus_start :
    (∀ r : TimeWarriorLine, duration r = toSec r.until_ - toSec r.start) ∧
    (∀ now : DT,
      (from_str now "inc 20001011T133055Z - 20001011T134055Z").map duration =
        .ok (durMinutes 10)) :=
  ⟨fun _ => rfl, fun _ => rfl⟩

/-- `scrub` keeps the kind field. -/
theorem scrub_tw_type (r : TimeWarriorLine) : (scrub r).tw_type = r.tw_type := by
  unfold scrub; split <;> rfl

/-- `scrub` keeps the start field. -/
theorem scrub_start (r : TimeWarriorLine) : (scrub r).start = r.start := by
  unfold scrub; split <;> rfl

/-- `scrub` keeps the tags field. -/
theorem scrub_tags (r : TimeWarriorLine) : (scrub r).tags = r.tags := by
  unfold scrub; split <;> rfl

/-- `scrub` keeps the active flag. -/
theorem scrub_active (r : TimeWarriorLine) : (scrub r).active = r.active := by
  unfold scrub; split <;> rfl

/-- `scrub` is the identity on closed records. -/
theorem scrub_of_active_false (r : TimeWarriorLine) (h : r.active = false) :
    scrub r = r := by
  unfold scrub; rw [h]; simp

/-- The parse result is clock-independent after scrubbing the
open-interval end field: the only use of `now` is the `until` of an open
record. -/
theorem fromTokens_scrub_eq (n1 n2 : DT) (ts : List String) :
    (fromTokens n1 ts).map scrub = (fromTokens n2 ts).map scrub := by
  rcases ft_shape ts with hs | ⟨k, hs⟩ | ⟨k, a, rr, hs, hpd⟩ |
    ⟨k, a, f, hs, hpd⟩ | ⟨k, a, rest, f, hs, hpd⟩ |
    ⟨k, a, t, rest, f, hs, hpd, ht, ht2⟩ | ⟨k, a, f, hs, hpd⟩ |
    ⟨k, a, u, t4, r5, f, hs, hpd, ht4⟩ | ⟨k, a, u, f, hs, hpd⟩ |
    ⟨k, a, u, r5, f, hs, hpd⟩
  · rw [hs, ft_nil n1, ft_nil n2]
  · rw [hs, ft_one n1 k, ft_one n2 k]
  · rw [hs, ft_bad_date n1 k a rr hpd, ft_bad_date n2 k a rr hpd]
  · rw [hs, ft_two n1 k a f hpd, ft_two n2 k a f hpd]; rfl
  · rw [hs, ft_hash n1 k a rest f hpd, ft_hash n2 k a rest f hpd]; rfl
  · rw [hs, ft_other n1 k a t rest f hpd ht ht2,
      ft_other n2 k a t rest f hpd ht ht2]
  · rw [hs, ft_dash_nil n1 k a f hpd, ft_dash_nil n2 k a f hpd]
  · rw [hs, ft_dash_bad_next n1 k a u t4 r5 f hpd ht4,
      ft_dash_bad_next n2 k a u t4 r5 f hpd ht4]
  · rcases hu : parse_date u with _ | g
    · rw [hs, ft_dash_u_bad_nil n1 k a u f hpd hu,
        ft_dash_u_bad_nil n2 k a u f hpd hu]
    · rw [hs, ft_dash_u_ok_nil n1 k a u f g hpd hu,
        ft_dash_u_ok_nil n2 k a u f g hpd hu]
  · rcases hu : parse_date u with _ | g
    · rw [hs, ft_dash_u_bad_hash n1 k a u r5 f hpd hu,
        ft_dash_u_bad_hash n2 k a u r5 f hpd hu]
    · rw [hs, ft_dash_u_ok_hash n1 k a u r5 f g hpd hu,
        ft_dash_u_ok_hash n2 k a u r5 f g hpd hu]

/-- C8: parses of the same line at different clock values agree on kind,
start, tags and the active flag; when the interval is closed the records
are equal in every field, and hence `duration` is clock-independent. -/
theorem c8_closed_parse_deterministic (n1 n2 : DT) (l : String)
    (r1 r2 : TimeWarriorLine)
    (h1 : from_str n1 l = .ok r1) (h2 : from_str n2 l = .ok r2) :
    r1.tw_type = r2.tw_type ∧ r1.start = r2.start ∧ r1.tags = r2.tags ∧
      r1.active = r2.active ∧
      (r1.active = false → r1 = r2 ∧ duration r1 = duration r2) := by
  have hmap := fromTokens_scrub_eq n1 n2 (splitWhitespace l)
  unfold from_str at h1 h2
  rw [h1, h2] at hmap
  have hsc : scrub r1 = scrub r2 := by simpa [Except.map] using hmap
  have hty := congrArg TimeWarriorLine.tw_type hsc
  rw [scrub_tw_type, scrub_tw_type] at hty
  have hst := congrArg TimeWarriorLine.start hsc
  rw [scrub_start, scrub_start] at hst
  have htg := congrArg TimeWarriorLine.tags hsc
  rw [scrub_tags, scrub_tags] at htg
  have hac := congrArg TimeWarriorLine.active hsc
  rw [scrub_active, scrub_active] at hac
  refine ⟨hty, hst, htg, hac, ?_⟩
  intro hact
  have hact2 : r2.active = false := by rw [← hac]; exact hact
  have heq : r1 = r2 := by
    rw [scrub_of_active_false r1 hact, scrub_of_active_false r2 hact2] at hsc
    exact hsc
  exact ⟨heq, by rw [heq]⟩

/-- Witness for C8: the closed example line parsed at two different clock
values. -/
theorem c8_witness :
    (⟨"inc", ⟨2000, 10, 11, 13, 30, 55⟩, ⟨2000, 10, 11, 13, 40, 55⟩, [],
        false⟩ : TimeWarriorLine).tw_type =
      (⟨"inc", ⟨2000, 10, 11, 13, 30, 55⟩, ⟨2000, 10, 11, 13, 40, 55⟩, [],
        false⟩ : TimeWarriorLine).tw_type ∧
    (⟨"inc", ⟨2000, 10, 11, 13, 30, 55⟩, ⟨2000, 10, 11, 13, 40, 55⟩, [],
        false⟩ : TimeWarriorLine).start =
      (⟨"inc", ⟨2000, 10, 11, 13, 30, 55⟩, ⟨2000, 10, 11, 13, 40, 55⟩, [],
        false⟩ : TimeWarriorLine).start ∧
    (⟨"inc", ⟨2000, 10, 11, 13, 30, 55⟩, ⟨2000, 10, 11, 13, 40, 55⟩, [],
        false⟩ : TimeWarriorLine).tags =
      (⟨"inc", ⟨2000, 10, 11, 13, 30, 55⟩, ⟨2000, 10, 11, 13, 40, 55⟩, [],
        false⟩ : TimeWarriorLine).tags ∧
    (⟨"inc", ⟨2000, 10, 11, 13, 30, 55⟩, ⟨2000, 10, 11, 13, 40, 55⟩, [],
        false⟩ : TimeWarriorLine).active =
      (⟨"inc", ⟨2000, 10, 11, 13, 30, 55⟩, ⟨2000, 10, 11, 13, 40, 55⟩, [],
        false⟩ : TimeWarriorLine).active ∧
    ((⟨"inc", ⟨2000, 10, 11, 13, 30, 55⟩, ⟨2000, 10, 11, 13, 40, 55⟩, [],
        false⟩ : TimeWarriorLine).active = false →
      (⟨"inc", ⟨2000, 10, 11, 13, 30, 55⟩, ⟨2000, 10, 11, 13, 40, 55⟩, [],
        false⟩ : TimeWarriorLine) =
        (⟨"inc", ⟨2000, 10, 11, 13, 30, 55⟩, ⟨2000, 10, 11, 13, 40, 55⟩, [],
          false⟩ : TimeWarriorLine) ∧
      duration ⟨"inc", ⟨2000, 10, 11, 13, 30, 55⟩,
          ⟨2000, 10, 11, 13, 40, 55⟩, [], false⟩ =
        duration ⟨"inc", ⟨2000, 10, 11, 13, 30, 55⟩,
          ⟨2000, 10, 11, 13, 40, 55⟩, [], false⟩) :=
  c8_closed_parse_deterministic ⟨2026, 1, 5, 12, 0, 0⟩ ⟨2027, 2, 6, 13, 0, 0⟩
    "inc 20001011T133055Z - 20001011T134055Z" _ _ rfl rfl

/-- Collapsing whitespace runs does not change the token stream. -/
theorem splitWsAux_normAux (cs : List Char) :
    (∀ acc, splitWsAux (normAux cs false) acc = splitWsAux cs acc) ∧
    splitWsAux (normAux cs true) [] = splitWsAux cs [] := by
  induction cs with
  | nil => exact ⟨fun _ => rfl, rfl⟩
  | cons c cs ih =>
    by_cases hc : isWs c = true
    · constructor
      · intro acc
        rw [show normAux (c :: cs) false = ' ' :: normAux cs true by
          simp [normAux, hc]]
        rw [show splitWsAux (' ' :: normAux cs true) acc =
          (if acc = [] then [] else [acc.reverse]) ++
            splitWsAux (normAux cs true) [] from rfl]
        rw [ih.2]
        rw [show splitWsAux (c :: cs) acc =
          (if acc = [] then [] else [acc.reverse]) ++ splitWsAux cs [] by
          simp [splitWsAux, hc]]
      · rw [show normAux (c :: cs) true = normAux cs true by simp [normAux, hc]]
        rw [ih.2]
        rw [show splitWsAux (c :: cs) [] = splitWsAux cs [] by
          simp [splitWsAux, hc]]
    · constructor
      · intro acc
        rw [show normAux (c :: cs) false = c :: normAux cs false by
          simp [normAux, hc]]
        rw [show splitWsAux (c :: normAux cs false) acc =
          splitWsAux (normAux cs false) (c :: acc) by simp [splitWsAux, hc]]
        rw [ih.1 (c :: acc)]
        rw [show splitWsAux (c :: cs) acc = splitWsAux cs (c :: acc) by
          simp [splitWsAux, hc]]
      · rw [show normAux (c :: cs) true = c :: normAux cs false by
          simp [normAux, hc]]
        rw [show splitWsAux (c :: normAux cs false) [] =
          splitWsAux (normAux cs false) [c] by simp [splitWsAux, hc]]
        rw [ih.1 [c]]
        rw [show splitWsAux (c :: cs) [] = splitWsAux cs [c] by
          simp [splitWsAux, hc]]

/-- C9: whitespace runs are never significant: a line and its
whitespace-collapsed form parse identically (at the same clock value),
and a quoted tag written with consecutive spaces comes out with a single
internal space. -/
theorem c9_whitespace_runs_collapse :
    (∀ (now : DT) (l : String), from_str now (normalizeWs l) = from_str now l) ∧
    (∀ now : DT, from_str now "inc 20001011T133055Z # \"A  B\"" =
      .ok ⟨"inc", ⟨2000, 10, 11, 13, 30, 55⟩, now, ["A B"], true⟩) := by
  refine ⟨?_, fun _ => rfl⟩
  intro now l
  unfold from_str
  have hsp : splitWhitespace (normalizeWs l) = splitWhitespace l := by
    unfold splitWhitespace normalizeWs
    exact congrArg (List.map String.mk) ((splitWsAux_normAux l.data).1 [])
  rw [hsp]

/-- A successful parse always carries the first token as its kind. -/
theorem fromTokens_ok_head (n : DT) (ts : List String) (r : TimeWarriorLine)
    (h : fromTokens n ts = .ok r) : ∃ rest, ts = r.tw_type :: rest := by
  rcases ft_shape ts with hs | ⟨k, hs⟩ | ⟨k, a, rr, hs, hpd⟩ |
    ⟨k, a, f, hs, hpd⟩ | ⟨k, a, rest, f, hs, hpd⟩ |
    ⟨k, a, t, rest, f, hs, hpd, ht, ht2⟩ | ⟨k, a, f, hs, hpd⟩ |
    ⟨k, a, u, t4, r5, f, hs, hpd, ht4⟩ | ⟨k, a, u, f, hs, hpd⟩ |
    ⟨k, a, u, r5, f, hs, hpd⟩
  · rw [hs, ft_nil] at h; simp at h
  · rw [hs, ft_one] at h; simp at h
  · rw [hs, ft_bad_date n k a rr hpd] at h; simp at h
  · rw [hs, ft_two n k a f hpd] at h
    have hr := (Except.ok.inj h).symm
    subst hr
    exact ⟨[a], hs⟩
  · rw [hs, ft_hash n k a rest f hpd] at h
    have hr := (Except.ok.inj h).symm
    subst hr
    exact ⟨a :: "#" :: rest, hs⟩
  · rw [hs, ft_other n k a t rest f hpd ht ht2] at h; simp at h
  · rw [hs, ft_dash_nil n k a f hpd] at h; simp at h
  · rw [hs, ft_dash_bad_next n k a u t4 r5 f hpd ht4] at h; simp at h
  · rcases hu : parse_date u with _ | g
    · rw [hs, ft_dash_u_bad_nil n k a u f hpd hu] at h; simp at h
    · rw [hs, ft_dash_u_ok_nil n k a u f g hpd hu] at h
      have hr := (Except.ok.inj h).symm
      subst hr
      exact ⟨[a, "-", u], hs⟩
  · rcases hu : parse_date u with _ | g
    · rw [hs, ft_dash_u_bad_hash n k a u r5 f hpd hu] at h; simp at h
    · rw [hs, ft_dash_u_ok_hash n k a u r5 f g hpd hu] at h
      have hr := (Except.ok.inj h).symm
      subst hr
      exact ⟨a :: "-" :: u :: "#" :: r5, hs⟩

/-- How the parse result depends on everything after the kind token: the
kind is never inspected, so swapping it never changes the outcome. -/
theorem fromTokens_kind_irrelevant (n : DT) (k1 k2 : String)
    (ts : List String) :
    (fromTokens n (k1 :: ts)).map scrubType =
      (fromTokens n (k2 :: ts)).map scrubType := by
  rcases ts with _ | ⟨a, rest2⟩
  · rfl
  rcases hpd : parse_date a with _ | f
  · rw [ft_bad_date n k1 a rest2 hpd, ft_bad_date n k2 a rest2 hpd]
  rcases rest2 with _ | ⟨t2, rest3⟩
  · rw [ft_two n k1 a f hpd, ft_two n k2 a f hpd]; rfl
  by_cases ht : t2 = "#"
  · subst ht
    rw [ft_hash n k1 a rest3 f hpd, ft_hash n k2 a rest3 f hpd]; rfl
  by_cases ht2 : t2 = "-"
  · subst ht2
    rcases rest3 with _ | ⟨u, rest4⟩
    · rw [ft_dash_nil n k1 a f hpd, ft_dash_nil n k2 a f hpd]
    rcases rest4 with _ | ⟨t4, r5⟩
    · rcases hu : parse_date u with _ | g
      · rw [ft_dash_u_bad_nil n k1 a u f hpd hu,
          ft_dash_u_bad_nil n k2 a u f hpd hu]
      · rw [ft_dash_u_ok_nil n k1 a u f g hpd hu,
          ft_dash_u_ok_nil n k2 a u f g hpd hu]; rfl
    by_cases ht4 : t4 = "#"
    · subst ht4
      rcases hu : parse_date u with _ | g
      · rw [ft_dash_u_bad_hash n k1 a u r5 f hpd hu,
          ft_dash_u_bad_hash n k2 a u r5 f hpd hu]
      · rw [ft_dash_u_ok_hash n k1 a u r5 f g hpd hu,
          ft_dash_u_ok_hash n k2 a u r5 f g hpd hu]; rfl
    · rw [ft_dash_bad_next n k1 a u t4 r5 f hpd ht4,
        ft_dash_bad_next n k2 a u t4 r5 f hpd ht4]
  · rw [ft_other n k1 a t2 rest3 f hpd ht ht2,
      ft_other n k2 a t2 rest3 f hpd ht ht2]

/-- C10: the kind field is never validated: any first token — even one
looking like a grammar marker or a date — is accepted verbatim as the
kind, swapping it never changes the rest of the outcome, and the line
`"# 20001011T133055Z"` parses with kind `#` and active true. -/
theorem c10_kind_never_validated :
    (∀ (now : DT) (k1 k2 : String) (ts : List String),
      (fromTokens now (k1 :: ts)).map scrubType =
        (fromTokens now (k2 :: ts)).map scrubType) ∧
    (∀ (now : DT) (k : String) (ts : List String) (r : TimeWarriorLine),
      fromTokens now (k :: ts) = .ok r → r.tw_type = k) ∧
    (∀ now : DT, from_str now "# 20001011T133055Z" =
      .ok ⟨"#", ⟨2000, 10, 11, 13, 30, 55⟩, now, [], true⟩) := by
  refine ⟨fromTokens_kind_irrelevant, ?_, fun _ => rfl⟩
  intro now k ts r h
  obtain ⟨rest, hr⟩ := fromTokens_ok_head now (k :: ts) r h
  injection hr with hh _
  exact hh.symm

/-- Witness for C10: the kind-reporting part applied to the `#`-kind
line. -/
theorem c10_witness :
    (⟨"#", ⟨2000, 10, 11, 13, 30, 55⟩, ⟨2026, 1, 5, 12, 0, 0⟩, [], true⟩ :
      TimeWarriorLine).tw_type = "#" :=
  c10_kind_never_validated.2.1 ⟨2026, 1, 5, 12, 0, 0⟩ "#"
    ["20001011T133055Z"] _ rfl
